import Mathlib

/-!
# userinfo: record store, cache sync and blob codec

A shallow embedding of `userinfo.go`.  The package keeps its state in global
variables (`db`, `users`, `objectboxes`, `objects`, `err`); here they are the
fields of `State`, passed explicitly.

The Bolt engine, the JSON codec, `encoding/base64` and the file system are
libraries the package calls.  The engine is modelled from its documented
contract as far as the package relies on it: named buckets of key/value pairs
held in ascending key order, a blank bucket name or a blank key rejected, a
key over `MaxKeySize` bytes or a value over `MaxValueSize` bytes rejected, a
missing bucket reported as a nil handle, a transaction committed when its
closure returns nil and rolled back otherwise.  Disk failures are not
modelled.  `make([]byte, n)` panics for a negative length and for one over
the runtime's limit `maxAlloc`; below that limit it succeeds when the runtime
can find the memory, which is a parameter of the blob codec, and otherwise the
runtime ends the process.  The JSON codec is a parameter of the scans.  The file system is a map from paths to the contents of regular
files, and `encoding/base64` is modelled after RFC 4648 and the decoder's
documented treatment of line breaks, padding and corrupt input.

A Go `string` used as a name or key is a `String`; a `[]byte`, and the string
made of the bytes of a file, is a list of bytes.  A nil slice returned by
`Read` is `none`, a non-nil one `some`.
-/

namespace Userinfo

/-! ## Values -/

/-- One byte of a Go `[]byte` or `string`. -/
abbrev Byte := Fin 256

/-- Go `error` values that the modelled calls can produce. -/
inductive Error where
  | ErrBucketNameRequired
  | ErrKeyRequired
  | ErrKeyTooLarge
  | ErrValueTooLarge
  | ErrUnmarshal
  | ErrEOF
  | ErrNotExist
  | ErrCorruptInput
  deriving DecidableEq, Repr

/-- How a call ends: it returns, it panics, or the process ends (`log.Fatal`,
or the runtime out of memory). -/
inductive Outcome (α : Type) where
  | returned (a : α)
  | panicked
  | exited
  deriving DecidableEq, Repr

/-- A Go `map[string]V`: a finite map with no order on its keys. -/
abbrev GoMap (V : Type) := Finmap (fun _ : String => V)

/-! ## Records -/

/-- The struct `Person`. `More` is an `interface{}`, carried as its JSON text. -/
structure Person where
  ID : String
  FirstName : String
  LastName : String
  NickName : String
  Email : String
  Data : String
  Gender : Nat
  BodyType : Nat
  Age : Nat
  LookingFor : Nat
  Height : Nat
  ZipCode : Nat
  More : Option String
  deriving DecidableEq, Repr

/-- The struct `ObjectBox`. A `time.Time` is carried as an integer instant. -/
structure ObjectBox where
  OwnerID : String
  TimeCreated : Int
  TimeModified : Int
  Bucket : String
  Objects : List String
  deriving DecidableEq, Repr

/-- The struct `UserObject`. `Size` is a Go `int`, of 64 bits. -/
structure UserObject where
  OwnerID : String
  ObjectID : String
  Title : String
  Filename : String
  Extension : String
  Data : String
  TimeCreated : Int
  TimeModified : Int
  Size : Int
  IsMessage : Bool
  IsMedia : Bool
  IsFile : Bool
  IsPublic : Bool
  Permissions : List String
  ImgSrc : String
  ImgBase64 : String
  LinkHref : String
  LinkTitle : String
  Ref : String
  Class : String
  deriving DecidableEq, Repr

/-! ## The engine -/

/-- Lookup in a list of key/value pairs: the value of the first pair with key `k`. -/
def kvGet {V : Type} (k : String) : List (String × V) → Option V
  | [] => none
  | (k1, v1) :: t => if k1 = k then some v1 else kvGet k t

/-- The engine orders keys as `bytes.Compare` does: lexicographically. -/
def keyLess (a b : String) : Bool :=
  decide (a.toList < b.toList)

/-- Insert or overwrite in a list of pairs held in ascending key order. -/
def kvPut {V : Type} (k : String) (v : V) : List (String × V) → List (String × V)
  | [] => [(k, v)]
  | (k1, v1) :: t =>
    if keyLess k k1 then (k, v) :: (k1, v1) :: t
    else if k = k1 then (k, v) :: t
    else (k1, v1) :: kvPut k v t

/-- Remove key `k` from a list of pairs. -/
def kvDel {V : Type} (k : String) (l : List (String × V)) : List (String × V) :=
  l.filter (fun e => decide (e.1 ≠ k))

/-- The keys of a list of pairs, in order. -/
def kvKeys {V : Type} (l : List (String × V)) : List String :=
  l.map Prod.fst

/-- A Bolt bucket: its key/value pairs in ascending key order. -/
abbrev Bucket := List (String × List Byte)

/-- The contents of an open Bolt database (and of a transaction on it): its
top-level buckets by name. -/
abbrev DB := List (String × Bucket)

/-- The call `tx.Bucket(name)`: `none` is the nil handle of a missing bucket. -/
def txBucket (tx : DB) (name : String) : Option Bucket :=
  kvGet name tx

/-- The call `tx.CreateBucketIfNotExists(name)`: the transaction afterwards and
the bucket, or the error for a blank name. -/
def txCreateBucketIfNotExists (tx : DB) (name : String) : Except Error (DB × Bucket) :=
  if name = "" then .error .ErrBucketNameRequired
  else
    match kvGet name tx with
    | some b => .ok (tx, b)
    | none => .ok (kvPut name [] tx, [])

/-- The engine's constant `MaxKeySize`: the largest key, in bytes. -/
def MaxKeySize : Nat := 32768

/-- The engine's constant `MaxValueSize`, `(1 << 31) - 2`: the largest value,
in bytes. -/
def MaxValueSize : Nat := 2147483646

/-- The call `b.Put(key, value)` on a bucket of a writable transaction: a blank
key, a key of more than `MaxKeySize` bytes and a value of more than
`MaxValueSize` bytes are errors. The length of a key is its number of bytes. -/
def bucketPut (b : Bucket) (key : String) (value : List Byte) : Except Error Bucket :=
  if key = "" then .error .ErrKeyRequired
  else if key.utf8ByteSize > MaxKeySize then .error .ErrKeyTooLarge
  else if value.length > MaxValueSize then .error .ErrValueTooLarge
  else .ok (kvPut key value b)

/-- The call `b.Get(key)`: `none` is the nil slice of a missing key. -/
def bucketGet (b : Bucket) (key : String) : Option (List Byte) :=
  kvGet key b

/-- The call `b.Delete(key)` on an existing bucket: a missing key is not an error. -/
def bucketDelete (b : Bucket) (key : String) : Bucket :=
  kvDel key b

/-- Store bucket `b` back under `name` in the transaction. -/
def txSetBucket (tx : DB) (name : String) (b : Bucket) : DB :=
  kvPut name b tx

/-- The call `b.ForEach(fn)`: `fn` runs on every pair in key order, threading the
variables it captures, and the first error it returns stops the iteration. -/
def bucketForEach {σ : Type} (fn : σ → String → List Byte → σ × Option Error) :
    Bucket → σ → σ × Option Error
  | [], c => (c, none)
  | (k, v) :: t, c =>
    match fn c k v with
    | (c1, some e) => (c1, some e)
    | (c1, none) => bucketForEach fn t c1

/-- The call `db.Update(fn)`: `fn` gives the transaction afterwards, the
variables it captured and its error; nil commits, an error rolls back. -/
def Update {σ : Type} (db : DB) (fn : DB → DB × σ × Option Error) : DB × σ × Option Error :=
  match fn db with
  | (tx, c, none) => (tx, c, none)
  | (_, c, some e) => (db, c, some e)

/-! ## Package state -/

/-- The package-level variables. -/
structure State where
  db : DB
  users : GoMap Person
  objectboxes : GoMap ObjectBox
  objects : GoMap UserObject
  err : Option Error

/-- A freshly created store with empty caches. -/
def State.empty : State :=
  { db := [], users := ∅, objectboxes := ∅, objects := ∅, err := none }

/-! ## Record store -/

/-- The function `Delete`. The handle returned by `tx.Bucket` is used without a
nil check, so a missing bucket is a nil dereference inside the closure. The
error variable is local (`:=`), so the package `err` is untouched. -/
def Delete (s : State) (bucket key : String) : Outcome (State × Option Error) :=
  match txBucket s.db bucket with
  | none => .panicked
  | some b =>
    let r := Update s.db (fun tx => (txSetBucket tx bucket (bucketDelete b key), (), none))
    .returned ({ s with db := r.1 }, r.2.2)

/-- The function `Write`. -/
def Write (s : State) (bucket key : String) (value : List Byte) : State × Option Error :=
  let r := Update s.db (fun tx =>
    match txCreateBucketIfNotExists tx bucket with
    | .error e => (tx, (), some e)
    | .ok (tx1, b) =>
      if key ≠ "" then
        match bucketPut b key value with
        | .error e => (tx1, (), some e)
        | .ok b1 => (txSetBucket tx1 bucket b1, (), none)
      else (tx1, (), none))
  ({ s with db := r.1, err := r.2.2 }, r.2.2)

/-- The function `Read`: the state afterwards and the slice returned, `none`
being nil. The closure of `db.View` always returns nil, which is assigned to
the package `err`. -/
def Read (s : State) (bucket key : String) : State × Option (List Byte) :=
  if bucket = "" ∨ key = "" then (s, none)
  else
    let v : Option (List Byte) :=
      match txBucket s.db bucket with
      | none => none
      | some b => bucketGet b key
    ({ s with err := none }, v)


/-! ## Cache sync -/

/-- The callback the three scans pass to `ForEach`: unmarshal the value into a
fresh record and, unless that fails, assign it to the map under the key. -/
def scanStep {V : Type} (unmarshal : List Byte → Except Error V)
    (m : GoMap V) (k : String) (v : List Byte) : GoMap V × Option Error :=
  match unmarshal v with
  | .error e => (m, some e)
  | .ok u => (m.insert k u, none)

/-- The function `Scan`, given `json.Unmarshal` into a `Person`. An error from
`db.Update` reaches `log.Fatal`. The counter `i` is never read and is left out. -/
def Scan (unmarshal : List Byte → Except Error Person) (s : State) :
    Outcome (State × GoMap Person) :=
  let r := Update s.db (fun tx =>
    match txCreateBucketIfNotExists tx "user" with
    | .error e => (tx, s.users, some e)
    | .ok (tx1, b) =>
      match bucketForEach (scanStep unmarshal) b s.users with
      | (users, some e) => (tx1, users, some e)
      | (users, none) => (tx1, users, none))
  match r with
  | (_, _, some _) => .exited
  | (db, users, none) => .returned ({ s with db := db, users := users, err := none }, users)

/-- The function `ScanObjectBoxes`, given `json.Unmarshal` into an `ObjectBox`. -/
def ScanObjectBoxes (unmarshal : List Byte → Except Error ObjectBox) (s : State) :
    Outcome (State × GoMap ObjectBox) :=
  let r := Update s.db (fun tx =>
    match txCreateBucketIfNotExists tx "objectbox" with
    | .error e => (tx, s.objectboxes, some e)
    | .ok (tx1, b) =>
      match bucketForEach (scanStep unmarshal) b s.objectboxes with
      | (boxes, some e) => (tx1, boxes, some e)
      | (boxes, none) => (tx1, boxes, none))
  match r with
  | (_, _, some _) => .exited
  | (db, boxes, none) =>
    .returned ({ s with db := db, objectboxes := boxes, err := none }, boxes)

/-- The function `ScanObjects`, given `json.Unmarshal` into a `UserObject`. -/
def ScanObjects (unmarshal : List Byte → Except Error UserObject) (s : State) :
    Outcome (State × GoMap UserObject) :=
  let r := Update s.db (fun tx =>
    match txCreateBucketIfNotExists tx "object" with
    | .error e => (tx, s.objects, some e)
    | .ok (tx1, b) =>
      match bucketForEach (scanStep unmarshal) b s.objects with
      | (objs, some e) => (tx1, objs, some e)
      | (objs, none) => (tx1, objs, none))
  match r with
  | (_, _, some _) => .exited
  | (db, objs, none) => .returned ({ s with db := db, objects := objs, err := none }, objs)


/-! ## Lifecycle -/

/-- The function `Init`, given what `bolt.Open(location, 0666, nil)` returned:
a failure to open reaches `log.Fatal`; then every bucket name is written with
a blank key, an error being logged and otherwise ignored. -/
def Init (opened : Except Error DB) (buckets : List String) (s : State) : Outcome State :=
  match opened with
  | .error _ => .exited
  | .ok db =>
    .returned (buckets.foldl (fun st bucket => (Write st bucket "" []).1)
      { s with db := db, err := none })

/-! ## Standard base64 (`encoding/base64`, `StdEncoding`) -/

/-- The byte with value `n mod 256`, as the conversion `byte(n)`. -/
def mkByte (n : Nat) : Byte :=
  ⟨n % 256, Nat.mod_lt n (by decide)⟩

/-- The alphabet `encodeStd` of the standard encoding. -/
def encodeStd : List Byte :=
  "ABCDEFGHIJKLMNOPQRSTUVWXYZabcdefghijklmnopqrstuvwxyz0123456789+/".toList.map
    (fun c => mkByte c.toNat)

/-- The padding character `=`. -/
def StdPadding : Byte := 61

/-- The table `decodeMap`: the six-bit value of a symbol, `none` for a byte
outside the alphabet (the entry `0xFF`). -/
def decodeMap (c : Byte) : Option Nat :=
  if encodeStd.indexOf c < 64 then some (encodeStd.indexOf c) else none

/-- The 24-bit value of four six-bit values. -/
def quantumVal (d0 d1 d2 d3 : Nat) : Nat :=
  d0 * 262144 + d1 * 4096 + d2 * 64 + d3

/-- Decoding of text without line breaks, four symbols at a time: the bytes
produced and the error, if any. A quantum ending in `=` or `==` gives two
bytes or one and must end the input; a corrupt quantum gives no byte. -/
def decodeQuanta : List Byte → List Byte × Option Error
  | [] => ([], none)
  | c0 :: c1 :: c2 :: c3 :: rest =>
    match decodeMap c0, decodeMap c1 with
    | some d0, some d1 =>
      match decodeMap c2, decodeMap c3 with
      | some d2, some d3 =>
        let val := quantumVal d0 d1 d2 d3
        let r := decodeQuanta rest
        (mkByte (val / 65536) :: mkByte (val / 256) :: mkByte val :: r.1, r.2)
      | some d2, none =>
        if c3 = StdPadding then
          let val := quantumVal d0 d1 d2 0
          ([mkByte (val / 65536), mkByte (val / 256)],
            if rest = [] then none else some .ErrCorruptInput)
        else ([], some .ErrCorruptInput)
      | none, _ =>
        if c2 = StdPadding ∧ c3 = StdPadding then
          let val := quantumVal d0 d1 0 0
          ([mkByte (val / 65536)], if rest = [] then none else some .ErrCorruptInput)
        else ([], some .ErrCorruptInput)
    | _, _ => ([], some .ErrCorruptInput)
  | _ => ([], some .ErrCorruptInput)

/-- The bytes `StdEncoding.Decode` writes and its error: carriage returns and
line feeds are skipped, the rest is decoded in quanta. -/
def StdDecode (src : List Byte) : List Byte × Option Error :=
  decodeQuanta (src.filter (fun c => decide (c ≠ 10 ∧ c ≠ 13)))

/-! ## Blob codec -/

/-- The regular files of the file system, by path. -/
abbrev FileSystem := String → Option (List Byte)

/-- The call `os.Open(name)`: the content of the file, or the error. -/
def osOpen (fs : FileSystem) (name : String) : Except Error (List Byte) :=
  match fs name with
  | none => .error .ErrNotExist
  | some content => .ok content

/-- The first `file.Read(b)` on a file just opened, `len` being `len(b)`: the
bytes read (`b[:n]`) and the error. An empty buffer reads nothing; at the end
of the file a non-empty buffer gets `io.EOF`. -/
def fileRead (content : List Byte) (len : Nat) : List Byte × Option Error :=
  if len = 0 then ([], none)
  else if content = [] then ([], some .ErrEOF)
  else (content.take len, none)

/-- The runtime's limit on the bytes of one allocation, on a 64-bit platform
with 48 address bits. -/
def maxAlloc : Nat := 2 ^ 48

/-- What the runtime can allocate while a method runs: whether a request for
so many bytes finds the memory. -/
abbrev Allocator := Nat → Bool

/-- The call `make([]byte, size)`: the length of the slice; the panic
`makeslice: len out of range` for a negative size or one over `maxAlloc`; the
end of the process when the runtime is out of memory. -/
def makeBytes (canAlloc : Allocator) (size : Int) : Outcome Nat :=
  if size < 0 ∨ size > (maxAlloc : Int) then .panicked
  else if canAlloc size.toNat then .returned size.toNat
  else .exited

/-- The method `UserObject.Base64`: the bytes of the string returned. The
buffer is made after the file is opened and before it is read. -/
def Base64 (canAlloc : Allocator) (fs : FileSystem) (ob : UserObject) :
    Outcome (List Byte) :=
  match osOpen fs ob.ObjectID with
  | .error _ => .returned []
  | .ok file =>
    match makeBytes canAlloc ob.Size with
    | .panicked => .panicked
    | .exited => .exited
    | .returned len =>
      match fileRead file len with
      | (_, some _) => .returned []
      | (bn, none) => .returned bn

/-- The method `UserObject.RawBytes`. After the read the decoder writes into a
buffer made with `1024*1000` bytes, so writing more is an index out of range;
its error is dropped and the bytes written are returned. -/
def RawBytes (canAlloc : Allocator) (fs : FileSystem) (ob : UserObject) :
    Outcome (List Byte) :=
  match osOpen fs ob.ObjectID with
  | .error _ => .returned []
  | .ok file =>
    match makeBytes canAlloc ob.Size with
    | .panicked => .panicked
    | .exited => .exited
    | .returned len =>
      match fileRead file len with
      | (_, some _) => .returned []
      | (bn, none) =>
        match makeBytes canAlloc (1024 * 1000) with
        | .panicked => .panicked
        | .exited => .exited
        | .returned _ =>
          let dst := (StdDecode bn).1
          if dst.length > 1024 * 1000 then .panicked else .returned dst

/-! ## Notions used to state the results -/

/-- The pairs of bucket `name`, none when the bucket does not exist. -/
def bucketPairs (db : DB) (name : String) : Bucket :=
  (txBucket db name).getD []

/-- Ascending key order without repeated keys, the engine's invariant on the
pairs of a bucket. -/
def kvSorted {V : Type} (l : List (String × V)) : Prop :=
  l.Pairwise (fun a b => a.1 < b.1)

/-- Every value of the pairs unmarshals. -/
def allDecode {V : Type} (unmarshal : List Byte → Except Error V) (b : Bucket) : Prop :=
  ∀ e ∈ b, ∃ u, unmarshal e.2 = .ok u

/-- The map a scan builds from map `m` when every value of `b` unmarshals. -/
def scanFold {V : Type} (unmarshal : List Byte → Except Error V) : Bucket → GoMap V → GoMap V
  | [], m => m
  | (k, v) :: t, m => scanFold unmarshal t (scanStep unmarshal m k v).1

/-- The record the last pair of `b` with key `k` unmarshals to, if any. -/
def lastOk {V : Type} (unmarshal : List Byte → Except Error V) (k : String) : Bucket → Option V
  | [] => none
  | (k1, v1) :: t =>
    match lastOk unmarshal k t with
    | some u => some u
    | none =>
      if k1 = k then
        match unmarshal v1 with
        | .ok u => some u
        | .error _ => none
      else none

/-- A stand-in for `json.Unmarshal` into a `Person` in the examples: the first
byte is the age, and empty input is an error. -/
def sampleUnmarshal : List Byte → Except Error Person
  | [] => .error .ErrUnmarshal
  | b :: _ =>
    .ok { ID := "", FirstName := "", LastName := "", NickName := "", Email := "", Data := "",
          Gender := 0, BodyType := 0, Age := b.val, LookingFor := 0, Height := 0,
          ZipCode := 0, More := none }

/-- What a scan of pairs `b` makes of the map `prior`: the keys of `m` are
those of `prior` and those of `b`; a key outside `b` keeps its entry; a key of
`b` holds the record one of its stored values unmarshals to. -/
def Merged {V : Type} (unmarshal : List Byte → Except Error V) (b : Bucket)
    (prior m : GoMap V) : Prop :=
  (∀ k, k ∈ m ↔ k ∈ prior ∨ k ∈ kvKeys b) ∧
  (∀ k, k ∉ kvKeys b → m.lookup k = prior.lookup k) ∧
  (∀ k, k ∈ kvKeys b → ∃ v u, (k, v) ∈ b ∧ unmarshal v = .ok u ∧ m.lookup k = some u)

/-- The calls `Write("user", K, encode(P))` for a list of records, in order. -/
def writeUsers (encode : Person → List Byte) (s : State) (recs : List (String × Person)) :
    State :=
  recs.foldl (fun st r => (Write st "user" r.1 (encode r.2)).1) s

/-- A stand-in for the JSON encoding of a `Person` in the examples, read back
by `sampleUnmarshal`: the age as one byte. -/
def sampleEncode (p : Person) : List Byte :=
  [mkByte p.Age]

/-- A `Person` with the given key and age, other fields unset. -/
def samplePerson (id : String) (age : Nat) : Person :=
  { ID := id, FirstName := "", LastName := "", NickName := "", Email := "", Data := "",
    Gender := 0, BodyType := 0, Age := age, LookingFor := 0, Height := 0, ZipCode := 0,
    More := none }

/-- A `UserObject` with the given path and size, other fields unset. -/
def sampleObject (id : String) (size : Int) : UserObject :=
  { OwnerID := "", ObjectID := id, Title := "", Filename := "", Extension := "", Data := "",
    TimeCreated := 0, TimeModified := 0, Size := size, IsMessage := false, IsMedia := false,
    IsFile := false, IsPublic := false, Permissions := [], ImgSrc := "", ImgBase64 := "",
    LinkHref := "", LinkTitle := "", Ref := "", Class := "" }

/-- A file system with the single file `obj1`, holding the text `QQ==`, the
standard base64 encoding of the one byte 65. -/
def sampleFiles : FileSystem :=
  fun path => if path = "obj1" then some [81, 81, 61, 61] else none

/-- A runtime with memory for every request. -/
def plenty : Allocator :=
  fun _ => true

/-- A runtime close to its memory limit: only requests of at most 1000 bytes
find memory. -/
def scarce : Allocator :=
  fun n => decide (n ≤ 1000)

/-- A key of 32769 bytes, one more than `MaxKeySize`. -/
def bigKey : String :=
  String.mk (List.replicate 32769 (Char.ofNat 97))

/-- A value of 2147483647 bytes, one more than `MaxValueSize`. -/
def bigValue : List Byte :=
  List.replicate 2147483647 0

theorem kvGet_kvPut_self {V : Type} (k : String) (v : V) (l : List (String × V)) :
    kvGet k (kvPut k v l) = some v := by
  induction l with
  | nil => simp [kvPut, kvGet]
  | cons hd t ih =>
    obtain ⟨k1, v1⟩ := hd
    simp only [kvPut]
    split_ifs with h1 h2
    · simp [kvGet]
    · simp [kvGet]
    · have h3 : ¬ k1 = k := fun h => h2 h.symm
      simp [kvGet, h3, ih]

theorem kvGet_kvPut_ne {V : Type} (k k2 : String) (v : V) (l : List (String × V))
    (hne : k2 ≠ k) : kvGet k2 (kvPut k v l) = kvGet k2 l := by
  have hne2 : ¬ k = k2 := fun h => hne h.symm
  induction l with
  | nil => simp [kvPut, kvGet, hne2]
  | cons hd t ih =>
    obtain ⟨k1, v1⟩ := hd
    simp only [kvPut]
    split_ifs with h1 h2
    · simp [kvGet, hne2]
    · subst h2
      simp [kvGet, hne2]
    · simp only [kvGet, ih]

theorem kvGet_kvDel_self {V : Type} (k : String) (l : List (String × V)) :
    kvGet k (kvDel k l) = none := by
  induction l with
  | nil => simp [kvDel, kvGet]
  | cons hd t ih =>
    obtain ⟨k1, v1⟩ := hd
    by_cases h : k1 = k
    · simpa [kvDel, h] using ih
    · simpa [kvDel, kvGet, h] using ih

theorem kvGet_kvDel_ne {V : Type} (k k2 : String) (l : List (String × V)) (hne : k2 ≠ k) :
    kvGet k2 (kvDel k l) = kvGet k2 l := by
  induction l with
  | nil => simp [kvDel, kvGet]
  | cons hd t ih =>
    obtain ⟨k1, v1⟩ := hd
    have ih2 : kvGet k2 (List.filter (fun e => decide (e.1 ≠ k)) t) = kvGet k2 t := ih
    by_cases h : k1 = k
    · subst h
      have h2 : ¬ k1 = k2 := fun e => hne e.symm
      simp only [kvDel, List.filter, ne_eq, not_true_eq_false, decide_False, kvGet, h2,
        if_false]
      exact ih2
    · simp only [kvDel, List.filter, h, ne_eq, not_false_eq_true, decide_True, kvGet]
      rw [ih2]

theorem kvGet_eq_none_iff {V : Type} (k : String) (l : List (String × V)) :
    kvGet k l = none ↔ k ∉ kvKeys l := by
  induction l with
  | nil => simp [kvGet, kvKeys]
  | cons hd t ih =>
    obtain ⟨k1, v1⟩ := hd
    by_cases h : k1 = k
    · simp [kvGet, kvKeys, h]
    · have h2 : ¬ k = k1 := fun e => h e.symm
      simpa [kvGet, kvKeys, h, h2] using ih

theorem kvGet_mem {V : Type} (k : String) (v : V) (l : List (String × V))
    (h : kvGet k l = some v) : (k, v) ∈ l := by
  induction l with
  | nil => simp [kvGet] at h
  | cons hd t ih =>
    obtain ⟨k1, v1⟩ := hd
    by_cases h1 : k1 = k
    · simp [kvGet, h1] at h
      simp [h1, h]
    · simp [kvGet, h1] at h
      exact List.mem_cons_of_mem _ (ih h)

/-! ## What `Write` does to the database -/

theorem Write_db_blank_bucket (s : State) (K : String) (V : List Byte) :
    (Write s "" K V).1.db = s.db ∧ (Write s "" K V).2 = some .ErrBucketNameRequired := by
  simp [Write, Update, txCreateBucketIfNotExists]

theorem Write_txBucket_self (s : State) (B K : String) (V : List Byte) (hB : B ≠ "")
    (hK : K ≠ "") (hKs : K.utf8ByteSize ≤ MaxKeySize) (hVs : V.length ≤ MaxValueSize) :
    (Write s B K V).2 = none ∧
      txBucket (Write s B K V).1.db B = some (kvPut K V ((txBucket s.db B).getD [])) := by
  have h1 : ¬ K.utf8ByteSize > MaxKeySize := Nat.not_lt.mpr hKs
  have h2 : ¬ V.length > MaxValueSize := Nat.not_lt.mpr hVs
  cases hb : kvGet B s.db with
  | none =>
    simp [Write, Update, txCreateBucketIfNotExists, hB, hK, hb, bucketPut, txSetBucket,
      txBucket, kvGet_kvPut_self, h1, h2]
  | some b =>
    simp [Write, Update, txCreateBucketIfNotExists, hB, hK, hb, bucketPut, txSetBucket,
      txBucket, kvGet_kvPut_self, h1, h2]

theorem Write_key_too_large (s : State) (B K : String) (V : List Byte) (hB : B ≠ "")
    (hK : K ≠ "") (h : K.utf8ByteSize > MaxKeySize) :
    (Write s B K V).2 = some .ErrKeyTooLarge ∧ (Write s B K V).1.db = s.db := by
  cases hb : kvGet B s.db with
  | none => simp [Write, Update, txCreateBucketIfNotExists, hB, hK, hb, bucketPut, h]
  | some b => simp [Write, Update, txCreateBucketIfNotExists, hB, hK, hb, bucketPut, h]

theorem Write_value_too_large (s : State) (B K : String) (V : List Byte) (hB : B ≠ "")
    (hK : K ≠ "") (hKs : K.utf8ByteSize ≤ MaxKeySize) (h : V.length > MaxValueSize) :
    (Write s B K V).2 = some .ErrValueTooLarge ∧ (Write s B K V).1.db = s.db := by
  have h1 : ¬ K.utf8ByteSize > MaxKeySize := Nat.not_lt.mpr hKs
  cases hb : kvGet B s.db with
  | none => simp [Write, Update, txCreateBucketIfNotExists, hB, hK, hb, bucketPut, h, h1]
  | some b => simp [Write, Update, txCreateBucketIfNotExists, hB, hK, hb, bucketPut, h, h1]

theorem Write_txBucket_ne (s : State) (B B2 K : String) (V : List Byte) (hne : B2 ≠ B) :
    txBucket (Write s B K V).1.db B2 = txBucket s.db B2 := by
  by_cases hB : B = ""
  · subst hB
    rw [(Write_db_blank_bucket s K V).1]
  · by_cases hK : K = ""
    · cases hb : kvGet B s.db with
      | none =>
        simp [Write, Update, txCreateBucketIfNotExists, hB, hK, hb, txBucket,
          kvGet_kvPut_ne _ _ _ _ hne]
      | some b =>
        simp [Write, Update, txCreateBucketIfNotExists, hB, hK, hb, txBucket]
    · by_cases h1 : K.utf8ByteSize > MaxKeySize
      · rw [(Write_key_too_large s B K V hB hK h1).2]
      · by_cases h2 : V.length > MaxValueSize
        · rw [(Write_value_too_large s B K V hB hK (Nat.not_lt.mp h1) h2).2]
        · cases hb : kvGet B s.db with
          | none =>
            simp [Write, Update, txCreateBucketIfNotExists, hB, hK, hb, txBucket, bucketPut,
              txSetBucket, kvGet_kvPut_ne _ _ _ _ hne, h1, h2]
          | some b =>
            simp [Write, Update, txCreateBucketIfNotExists, hB, hK, hb, txBucket, bucketPut,
              txSetBucket, kvGet_kvPut_ne _ _ _ _ hne, h1, h2]

theorem Write_blank_key (s : State) (B : String) (V : List Byte) (hB : B ≠ "") :
    (Write s B "" V).2 = none ∧
      txBucket (Write s B "" V).1.db B = some ((txBucket s.db B).getD []) := by
  cases hb : kvGet B s.db with
  | none =>
    simp [Write, Update, txCreateBucketIfNotExists, hB, hb, txBucket, kvGet_kvPut_self]
  | some b =>
    simp [Write, Update, txCreateBucketIfNotExists, hB, hb, txBucket]

theorem Read_eq (s : State) (B K : String) (hB : B ≠ "") (hK : K ≠ "") :
    (Read s B K).2 = (txBucket s.db B).bind (fun b => kvGet K b) := by
  cases hb : txBucket s.db B <;> simp [Read, hB, hK, hb, bucketGet]

/-! ## Claims on the record store -/

/-- C1, as amended: on every state, for every non-empty bucket name B, every
non-empty key K of at most 32768 bytes and every value V of at most
2147483646 bytes, `Write(B,K,V)` returns nil and a following `Read(B,K)`
returns a non-nil slice holding exactly V. -/
theorem Write_Read_roundtrip (s : State) (B K : String) (V : List Byte)
    (hB : B ≠ "") (hK : K ≠ "")
    (hKs : K.utf8ByteSize ≤ MaxKeySize) (hVs : V.length ≤ MaxValueSize) :
    (Write s B K V).2 = none ∧ (Read (Write s B K V).1 B K).2 = some V := by
  obtain ⟨h1, h2⟩ := Write_txBucket_self s B K V hB hK hKs hVs
  refine ⟨h1, ?_⟩
  rw [Read_eq _ B K hB hK, h2]
  simp [kvGet_kvPut_self]

/-- Witness of C1 as amended: bucket `user`, key `u1`. -/
theorem Write_Read_roundtrip_witness :
    (Write State.empty "user" "u1" [1, 2, 3]).2 = none ∧
      (Read (Write State.empty "user" "u1" [1, 2, 3]).1 "user" "u1").2 = some [1, 2, 3] :=
  Write_Read_roundtrip State.empty "user" "u1" [1, 2, 3] (by decide) (by decide)
    (by decide) (by decide)

theorem utf8ByteSize_go_replicate (n : Nat) :
    String.utf8ByteSize.go (List.replicate n (Char.ofNat 97)) = n := by
  induction n with
  | zero => rfl
  | succ n ih =>
    have h1 : (Char.ofNat 97).utf8Size = 1 := by decide
    simp only [List.replicate_succ, String.utf8ByteSize.go, ih, h1]

theorem bigKey_size : bigKey.utf8ByteSize = 32769 :=
  utf8ByteSize_go_replicate 32769

theorem bigKey_ne : bigKey ≠ "" := by
  intro h
  have h2 := congrArg String.utf8ByteSize h
  rw [bigKey_size] at h2
  exact absurd h2 (by decide)

theorem bigValue_length : bigValue.length = 2147483647 :=
  List.length_replicate 2147483647 (0 : Byte)

/-- C1 fails in three ways, each with a non-empty key. For the blank bucket
name `Write` returns an error and `Read` returns nil. For the key `bigKey` of
32769 bytes `Write` returns the engine's error for a key too large and `Read`
returns nil. For the value `bigValue` of 2147483647 bytes `Write` returns the
error for a value too large and `Read` returns nil. -/
theorem Write_Read_rejected :
    (("k" ≠ "") ∧ (Write State.empty "" "k" [1]).2 = some .ErrBucketNameRequired ∧
      (Read (Write State.empty "" "k" [1]).1 "" "k").2 = none) ∧
    (bigKey ≠ "" ∧ (Write State.empty "user" bigKey [1]).2 = some .ErrKeyTooLarge ∧
      (Read (Write State.empty "user" bigKey [1]).1 "user" bigKey).2 = none) ∧
    (("k" ≠ "") ∧ (Write State.empty "user" "k" bigValue).2 = some .ErrValueTooLarge ∧
      (Read (Write State.empty "user" "k" bigValue).1 "user" "k").2 = none) := by
  have hk : bigKey.utf8ByteSize > MaxKeySize := by
    rw [bigKey_size]
    decide
  have hv : bigValue.length > MaxValueSize := by
    rw [bigValue_length]
    decide
  have h1 := Write_key_too_large State.empty "user" bigKey [1] (by decide) bigKey_ne hk
  have h2 := Write_value_too_large State.empty "user" "k" bigValue (by decide) (by decide)
    (by decide) hv
  refine ⟨by decide, ⟨bigKey_ne, h1.1, ?_⟩, ⟨by decide, h2.1, ?_⟩⟩
  · rw [Read_eq _ "user" bigKey (by decide) bigKey_ne, h1.2]
    rfl
  · rw [Read_eq _ "user" "k" (by decide) (by decide), h2.2]
    rfl

theorem Write_bucket_exists (s : State) (B K : String) (V : List Byte) (hB : B ≠ "")
    (hKs : K.utf8ByteSize ≤ MaxKeySize) (hVs : V.length ≤ MaxValueSize) :
    (Write s B K V).2 = none ∧ ∃ b, txBucket (Write s B K V).1.db B = some b := by
  by_cases hK : K = ""
  · subst hK
    exact ⟨(Write_blank_key s B V hB).1, _, (Write_blank_key s B V hB).2⟩
  · exact ⟨(Write_txBucket_self s B K V hB hK hKs hVs).1, _,
      (Write_txBucket_self s B K V hB hK hKs hVs).2⟩

/-- Where the write succeeds the removal works: for every non-empty bucket
name B, every key K of at most 32768 bytes and every value V of at most
2147483646 bytes, after `Write(B,K,V)` the call `Delete(B,K)` returns nil and
a following `Read(B,K)` returns nil. -/
theorem Write_Delete_Read (s : State) (B K : String) (V : List Byte) (hB : B ≠ "")
    (hKs : K.utf8ByteSize ≤ MaxKeySize) (hVs : V.length ≤ MaxValueSize) :
    ∃ s2, Delete (Write s B K V).1 B K = .returned (s2, none) ∧ (Read s2 B K).2 = none := by
  obtain ⟨_, b, hb⟩ := Write_bucket_exists s B K V hB hKs hVs
  refine ⟨{ (Write s B K V).1 with
    db := txSetBucket (Write s B K V).1.db B (bucketDelete b K) }, ?_, ?_⟩
  · simp [Delete, hb, Update]
  · by_cases hK : K = ""
    · simp [Read, hK]
    · rw [Read_eq _ B K hB hK]
      simp [txBucket, txSetBucket, bucketDelete, kvGet_kvPut_self, kvGet_kvDel_self]

/-- An instance of the removal: bucket `user`, key `u1`. -/
theorem Write_Delete_Read_instance :
    ∃ s2, Delete (Write State.empty "user" "u1" [7]).1 "user" "u1" = .returned (s2, none) ∧
      (Read s2 "user" "u1").2 = none :=
  Write_Delete_Read State.empty "user" "u1" [7] (by decide) (by decide) (by decide)

/-- C2, what the code does at the blank bucket name: `Write("", "k", V)`
returns an error and creates no bucket; `Delete("", "k")` then panics on the
nil bucket handle, so it does not return and no `Read` follows, although
`Read("", "k")` is nil on every state. -/
theorem Write_Delete_blank_bucket :
    (Write State.empty "" "k" [1]).2 = some .ErrBucketNameRequired ∧
      Delete (Write State.empty "" "k" [1]).1 "" "k" = .panicked ∧
      ∀ s : State, (Read s "" "k").2 = none :=
  ⟨by decide, rfl, fun s => by simp [Read]⟩

/-- C6, what the code does: `Delete` on a bucket that does not exist panics
(a nil bucket handle is dereferenced); it returns no error. -/
theorem Delete_missing_bucket (s : State) (B K : String) (h : txBucket s.db B = none) :
    Delete s B K = .panicked := by
  simp [Delete, h]

/-- Witness of the C6 theorem: no bucket `nosuch` in the empty store. -/
theorem Delete_missing_bucket_witness :
    txBucket State.empty.db "nosuch" = none ∧ Delete State.empty "nosuch" "k" = .panicked :=
  ⟨by decide, Delete_missing_bucket State.empty "nosuch" "k" (by decide)⟩

/-- C7, as amended: for every bucket name B and value V, `Write(B,"",V)` puts
nothing, so every `Read` returns the same before and after it; when B is not
blank it returns nil and bucket B exists afterwards, with a `Read(B,K)` of a
key K not stored in it returning nil; when B is blank it returns an error and
leaves the database as it was. -/
theorem Write_blank_key_noop (s : State) (B : String) (V : List Byte) :
    (∀ B2 K, (Read (Write s B "" V).1 B2 K).2 = (Read s B2 K).2) ∧
    (B ≠ "" → (Write s B "" V).2 = none ∧
      (∃ b, txBucket (Write s B "" V).1.db B = some b ∧
        ∀ K, K ∉ kvKeys b → (Read (Write s B "" V).1 B K).2 = none)) ∧
    (B = "" → (Write s B "" V).2 = some .ErrBucketNameRequired ∧
      (Write s B "" V).1.db = s.db) := by
  have key : ∀ B2 K, (Read (Write s B "" V).1 B2 K).2 = (Read s B2 K).2 := by
    intro B2 K
    by_cases h2 : B2 = ""
    · simp [Read, h2]
    · by_cases hK : K = ""
      · simp [Read, hK]
      · rw [Read_eq _ B2 K h2 hK, Read_eq _ B2 K h2 hK]
        by_cases hBB : B2 = B
        · subst hBB
          rw [(Write_blank_key s B2 V h2).2]
          cases hb : txBucket s.db B2 <;> simp [kvGet]
        · rw [Write_txBucket_ne s B B2 "" V hBB]
  refine ⟨key, ?_, ?_⟩
  · intro hB
    refine ⟨(Write_blank_key s B V hB).1, _, (Write_blank_key s B V hB).2, ?_⟩
    intro K hK
    by_cases hK2 : K = ""
    · simp [Read, hK2]
    · rw [Read_eq _ B K hB hK2, (Write_blank_key s B V hB).2]
      simpa using (kvGet_eq_none_iff K _).2 hK
  · intro hB
    subst hB
    exact ⟨(Write_db_blank_bucket s "" V).2, (Write_db_blank_bucket s "" V).1⟩

/-- Witness of C7 as amended: the bucket `user` on the empty store. -/
theorem Write_blank_key_noop_witness :
    (∀ B2 K, (Read (Write State.empty "user" "" [1]).1 B2 K).2 = (Read State.empty B2 K).2) ∧
    ("user" ≠ "" → (Write State.empty "user" "" [1]).2 = none ∧
      (∃ b, txBucket (Write State.empty "user" "" [1]).1.db "user" = some b ∧
        ∀ K, K ∉ kvKeys b → (Read (Write State.empty "user" "" [1]).1 "user" K).2 = none)) ∧
    ("user" = "" → (Write State.empty "user" "" [1]).2 = some .ErrBucketNameRequired ∧
      (Write State.empty "user" "" [1]).1.db = State.empty.db) :=
  Write_blank_key_noop State.empty "user" [1]

/-- C7 fails for the blank bucket name: `Write("","",V)` returns an error and
no bucket named by the blank string exists afterwards. -/
theorem Write_blank_key_blank_bucket :
    (Write State.empty "" "" [1]).2 = some .ErrBucketNameRequired ∧
      txBucket (Write State.empty "" "" [1]).1.db "" = none := by
  decide

/-- C8: on every state, `Read(B,K)` returns nil when B is blank, K is blank,
bucket B does not exist or K is not a key of bucket B; otherwise it returns a
value stored under K in B, the one `Get` finds; and `Read` leaves the
database and the caches as they were. -/
theorem Read_spec (s : State) (B K : String) :
    ((B = "" ∨ K = "" ∨ txBucket s.db B = none ∨
        ∃ b, txBucket s.db B = some b ∧ K ∉ kvKeys b) → (Read s B K).2 = none) ∧
    (∀ b, B ≠ "" → K ≠ "" → txBucket s.db B = some b → K ∈ kvKeys b →
        ∃ v, (Read s B K).2 = some v ∧ bucketGet b K = some v ∧ (K, v) ∈ b) ∧
    (Read s B K).1.db = s.db ∧ (Read s B K).1.users = s.users ∧
    (Read s B K).1.objectboxes = s.objectboxes ∧ (Read s B K).1.objects = s.objects := by
  refine ⟨?_, ?_, ?_⟩
  · intro h
    by_cases hB : B = ""
    · simp [Read, hB]
    · by_cases hK : K = ""
      · simp [Read, hK]
      · rw [Read_eq s B K hB hK]
        rcases h with h | h | h | ⟨b, hb, hk⟩
        · exact absurd h hB
        · exact absurd h hK
        · simp [h]
        · simpa [hb] using (kvGet_eq_none_iff K b).2 hk
  · intro b hB hK hb hk
    rw [Read_eq s B K hB hK, hb]
    cases hv : kvGet K b with
    | none => exact absurd hk ((kvGet_eq_none_iff K b).1 hv)
    | some v => exact ⟨v, by simp [hv], by simp [bucketGet, hv], kvGet_mem K v b hv⟩
  · by_cases h : B = "" ∨ K = "" <;> simp [Read, h]

/-- Witness of C8 on a store holding one record, at its bucket and key. -/
theorem Read_spec_witness :
    (("user" = "" ∨ "u1" = "" ∨ txBucket (Write State.empty "user" "u1" [7]).1.db "user" = none ∨
        ∃ b, txBucket (Write State.empty "user" "u1" [7]).1.db "user" = some b ∧
          "u1" ∉ kvKeys b) →
      (Read (Write State.empty "user" "u1" [7]).1 "user" "u1").2 = none) ∧
    (∀ b, "user" ≠ "" → "u1" ≠ "" →
        txBucket (Write State.empty "user" "u1" [7]).1.db "user" = some b → "u1" ∈ kvKeys b →
        ∃ v, (Read (Write State.empty "user" "u1" [7]).1 "user" "u1").2 = some v ∧
          bucketGet b "u1" = some v ∧ ("u1", v) ∈ b) ∧
    (Read (Write State.empty "user" "u1" [7]).1 "user" "u1").1.db =
      (Write State.empty "user" "u1" [7]).1.db ∧
    (Read (Write State.empty "user" "u1" [7]).1 "user" "u1").1.users =
      (Write State.empty "user" "u1" [7]).1.users ∧
    (Read (Write State.empty "user" "u1" [7]).1 "user" "u1").1.objectboxes =
      (Write State.empty "user" "u1" [7]).1.objectboxes ∧
    (Read (Write State.empty "user" "u1" [7]).1 "user" "u1").1.objects =
      (Write State.empty "user" "u1" [7]).1.objects :=
  Read_spec (Write State.empty "user" "u1" [7]).1 "user" "u1"

/-- A hit, a missing key and a missing bucket on a store holding one record. -/
theorem Read_hit_and_misses :
    (Read (Write State.empty "user" "u1" [7]).1 "user" "u1").2 = some [7] ∧
    (Read (Write State.empty "user" "u1" [7]).1 "user" "u2").2 = none ∧
    (Read (Write State.empty "user" "u1" [7]).1 "object" "u1").2 = none := by
  decide

/-! ## Key order -/

theorem keyLess_iff (a b : String) : keyLess a b = true ↔ a < b := by
  simp [keyLess, String.lt_iff_toList_lt]

theorem kvPut_mem {V : Type} (k : String) (v : V) (l : List (String × V)) (x : String × V)
    (hx : x ∈ kvPut k v l) : x = (k, v) ∨ x ∈ l := by
  induction l with
  | nil => simpa [kvPut] using hx
  | cons hd t ih =>
    obtain ⟨k1, v1⟩ := hd
    simp only [kvPut] at hx
    split_ifs at hx with h1 h2
    · simpa using hx
    · rcases List.mem_cons.1 hx with h | h
      · exact Or.inl h
      · exact Or.inr (List.mem_cons_of_mem _ h)
    · rcases List.mem_cons.1 hx with h | h
      · exact Or.inr (by simp [h])
      · rcases ih h with h3 | h3
        · exact Or.inl h3
        · exact Or.inr (List.mem_cons_of_mem _ h3)

theorem kvSorted_kvPut {V : Type} (k : String) (v : V) (l : List (String × V))
    (hl : kvSorted l) : kvSorted (kvPut k v l) := by
  induction l with
  | nil => simp [kvPut, kvSorted]
  | cons hd t ih =>
    obtain ⟨k1, v1⟩ := hd
    have hl2 := List.pairwise_cons.1 hl
    simp only [kvPut]
    split_ifs with h1 h2
    · have hlt : k < k1 := (keyLess_iff k k1).1 h1
      refine List.pairwise_cons.2 ⟨?_, hl⟩
      intro x hx
      rcases List.mem_cons.1 hx with h | h
      · simpa [h] using hlt
      · exact lt_trans hlt (hl2.1 x h)
    · subst h2
      exact List.pairwise_cons.2 ⟨hl2.1, hl2.2⟩
    · have hnlt : ¬ k < k1 := fun h => h1 ((keyLess_iff k k1).2 h)
      have hgt : k1 < k := by
        rcases lt_trichotomy k k1 with h | h | h
        · exact absurd h hnlt
        · exact absurd h h2
        · exact h
      refine List.pairwise_cons.2 ⟨?_, ih hl2.2⟩
      intro x hx
      rcases kvPut_mem k v t x hx with h | h
      · simpa [h] using hgt
      · exact hl2.1 x h

theorem kvGet_of_mem_sorted {V : Type} (k : String) (v : V) (l : List (String × V))
    (hl : kvSorted l) (hm : (k, v) ∈ l) : kvGet k l = some v := by
  induction l with
  | nil => simp at hm
  | cons hd t ih =>
    obtain ⟨k1, v1⟩ := hd
    have hl2 := List.pairwise_cons.1 hl
    rcases List.mem_cons.1 hm with h | h
    · have h1 : k = k1 := congrArg Prod.fst h
      have h2 : v = v1 := congrArg Prod.snd h
      simp [kvGet, h1, h2]
    · have hlt : k1 < k := hl2.1 (k, v) h
      have hne : ¬ k1 = k := ne_of_lt hlt
      simp only [kvGet, hne, if_false]
      exact ih hl2.2 h

/-! ## What a scan builds -/

theorem forEach_scanStep {V : Type} (um : List Byte → Except Error V) (b : Bucket)
    (m : GoMap V) (h : allDecode um b) :
    bucketForEach (scanStep um) b m = (scanFold um b m, none) := by
  induction b generalizing m with
  | nil => simp [bucketForEach, scanFold]
  | cons hd t ih =>
    obtain ⟨k, v⟩ := hd
    obtain ⟨u, hu⟩ := h (k, v) (by simp)
    have ht : allDecode um t := fun e he => h e (List.mem_cons_of_mem _ he)
    simp [bucketForEach, scanFold, scanStep, hu, ih _ ht]

theorem lookup_scanFold {V : Type} (um : List Byte → Except Error V) (b : Bucket)
    (m : GoMap V) (k : String) :
    (scanFold um b m).lookup k =
      match lastOk um k b with
      | some u => some u
      | none => m.lookup k := by
  induction b generalizing m with
  | nil => simp [scanFold, lastOk]
  | cons hd t ih =>
    obtain ⟨k1, v1⟩ := hd
    simp only [scanFold, lastOk]
    rw [ih]
    cases hl : lastOk um k t with
    | some u => simp
    | none =>
      simp only
      cases hu : um v1 with
      | error e => simp [scanStep, hu]
      | ok u =>
        by_cases hk : k1 = k
        · subst hk
          simp [scanStep, hu]
        · have hk2 : k ≠ k1 := fun e => hk e.symm
          simp [scanStep, hu, hk, Finmap.lookup_insert_of_ne _ hk2]

theorem scanFold_idem {V : Type} (um : List Byte → Except Error V) (b : Bucket)
    (m : GoMap V) : scanFold um b (scanFold um b m) = scanFold um b m := by
  apply Finmap.ext_lookup
  intro k
  rw [lookup_scanFold um b (scanFold um b m) k, lookup_scanFold um b m k]
  cases lastOk um k b <;> simp

theorem lastOk_eq_none_iff {V : Type} (um : List Byte → Except Error V) (b : Bucket)
    (k : String) (h : allDecode um b) : lastOk um k b = none ↔ k ∉ kvKeys b := by
  induction b with
  | nil => simp [lastOk, kvKeys]
  | cons hd t ih =>
    obtain ⟨k1, v1⟩ := hd
    obtain ⟨u, hu⟩ := h (k1, v1) (by simp)
    have ht : allDecode um t := fun e he => h e (List.mem_cons_of_mem _ he)
    have ih2 := ih ht
    simp only [lastOk]
    cases hl : lastOk um k t with
    | some w =>
      have : k ∈ kvKeys t := by
        by_contra hc
        rw [ih2.2 hc] at hl
        exact Option.noConfusion hl
      simp only [kvKeys, List.map_cons, List.mem_cons, not_or]
      constructor
      · intro hh
        exact Option.noConfusion hh
      · intro hh
        exact absurd this hh.2
    | none =>
      have hnot : k ∉ kvKeys t := ih2.1 hl
      by_cases hk : k1 = k
      · subst hk
        simp [hu, kvKeys]
      · have hk2 : ¬ k = k1 := fun e => hk e.symm
        have hnot2 : k ∉ List.map Prod.fst t := hnot
        simp [hk, kvKeys, hk2, hnot2]

theorem lastOk_some {V : Type} (um : List Byte → Except Error V) (b : Bucket)
    (k : String) (u : V) (h : lastOk um k b = some u) : ∃ v, (k, v) ∈ b ∧ um v = .ok u := by
  induction b with
  | nil => simp [lastOk] at h
  | cons hd t ih =>
    obtain ⟨k1, v1⟩ := hd
    simp only [lastOk] at h
    cases hl : lastOk um k t with
    | some w =>
      rw [hl] at h
      have hw : w = u := Option.some.inj h
      obtain ⟨v, hv, hv2⟩ := ih (hw ▸ hl)
      exact ⟨v, List.mem_cons_of_mem _ hv, hv2⟩
    | none =>
      rw [hl] at h
      simp only at h
      by_cases hk : k1 = k
      · subst hk
        cases hu : um v1 with
        | error e => simp [hu] at h
        | ok w =>
          simp [hu] at h
          exact ⟨v1, by simp, by rw [hu, h]⟩
      · simp [hk] at h

theorem scanFold_merged {V : Type} (um : List Byte → Except Error V) (b : Bucket)
    (m : GoMap V) (h : allDecode um b) : Merged um b m (scanFold um b m) := by
  have hlook := lookup_scanFold um b m
  refine ⟨?_, ?_, ?_⟩
  · intro k
    rw [← Finmap.lookup_isSome, hlook k, ← Finmap.lookup_isSome]
    cases hl : lastOk um k b with
    | none =>
      have hk : k ∉ kvKeys b := (lastOk_eq_none_iff um b k h).1 hl
      simp [hk]
    | some u =>
      have hk : k ∈ kvKeys b := by
        by_contra hc
        rw [(lastOk_eq_none_iff um b k h).2 hc] at hl
        exact Option.noConfusion hl
      simp [hk]
  · intro k hk
    rw [hlook k, (lastOk_eq_none_iff um b k h).2 hk]
  · intro k hk
    cases hl : lastOk um k b with
    | none => exact absurd hk ((lastOk_eq_none_iff um b k h).1 hl)
    | some u =>
      obtain ⟨v, hv, hv2⟩ := lastOk_some um b k u hl
      exact ⟨v, u, hv, hv2, by rw [hlook k, hl]⟩

theorem Scan_returned (um : List Byte → Except Error Person) (s : State)
    (h : allDecode um (bucketPairs s.db "user")) :
    ∃ s1, Scan um s = .returned (s1, scanFold um (bucketPairs s.db "user") s.users) ∧
      s1.users = scanFold um (bucketPairs s.db "user") s.users ∧
      txBucket s1.db "user" = some (bucketPairs s.db "user") := by
  unfold bucketPairs txBucket at *
  cases hb : kvGet "user" s.db with
  | none =>
    rw [hb] at h
    refine ⟨{ s with db := kvPut "user" [] s.db, err := none }, ?_, ?_, ?_⟩
    · simp [Scan, Update, txCreateBucketIfNotExists, hb, bucketForEach, scanFold]
    · simp [scanFold]
    · simp [kvGet_kvPut_self]
  | some b =>
    rw [hb] at h
    simp only [Option.getD_some] at h
    refine ⟨{ s with users := scanFold um b s.users, err := none }, ?_, rfl, ?_⟩
    · simp [Scan, Update, txCreateBucketIfNotExists, hb, forEach_scanStep um b s.users h]
    · simp [hb]

theorem ScanObjectBoxes_returned (um : List Byte → Except Error ObjectBox) (s : State)
    (h : allDecode um (bucketPairs s.db "objectbox")) :
    ∃ s1, ScanObjectBoxes um s =
        .returned (s1, scanFold um (bucketPairs s.db "objectbox") s.objectboxes) ∧
      s1.objectboxes = scanFold um (bucketPairs s.db "objectbox") s.objectboxes ∧
      txBucket s1.db "objectbox" = some (bucketPairs s.db "objectbox") := by
  unfold bucketPairs txBucket at *
  cases hb : kvGet "objectbox" s.db with
  | none =>
    rw [hb] at h
    refine ⟨{ s with db := kvPut "objectbox" [] s.db, err := none }, ?_, ?_, ?_⟩
    · simp [ScanObjectBoxes, Update, txCreateBucketIfNotExists, hb, bucketForEach, scanFold]
    · simp [scanFold]
    · simp [kvGet_kvPut_self]
  | some b =>
    rw [hb] at h
    simp only [Option.getD_some] at h
    refine ⟨{ s with objectboxes := scanFold um b s.objectboxes, err := none }, ?_, rfl, ?_⟩
    · simp [ScanObjectBoxes, Update, txCreateBucketIfNotExists, hb,
        forEach_scanStep um b s.objectboxes h]
    · simp [hb]

theorem ScanObjects_returned (um : List Byte → Except Error UserObject) (s : State)
    (h : allDecode um (bucketPairs s.db "object")) :
    ∃ s1, ScanObjects um s =
        .returned (s1, scanFold um (bucketPairs s.db "object") s.objects) ∧
      s1.objects = scanFold um (bucketPairs s.db "object") s.objects ∧
      txBucket s1.db "object" = some (bucketPairs s.db "object") := by
  unfold bucketPairs txBucket at *
  cases hb : kvGet "object" s.db with
  | none =>
    rw [hb] at h
    refine ⟨{ s with db := kvPut "object" [] s.db, err := none }, ?_, ?_, ?_⟩
    · simp [ScanObjects, Update, txCreateBucketIfNotExists, hb, bucketForEach, scanFold]
    · simp [scanFold]
    · simp [kvGet_kvPut_self]
  | some b =>
    rw [hb] at h
    simp only [Option.getD_some] at h
    refine ⟨{ s with objects := scanFold um b s.objects, err := none }, ?_, rfl, ?_⟩
    · simp [ScanObjects, Update, txCreateBucketIfNotExists, hb,
        forEach_scanStep um b s.objects h]
    · simp [hb]

theorem bucketPairs_of_txBucket (db : DB) (name : String) (b : Bucket)
    (h : txBucket db name = some b) : bucketPairs db name = b := by
  simp [bucketPairs, h]

/-! ## Claims on the cache sync -/

/-- C4, as amended: a scan adds to the cache and overwrites in it, and
removes nothing. For every state whose bucket values all unmarshal and every
prior content of the cache, `Scan` (and likewise `ScanObjectBoxes` and
`ScanObjects`) returns the cache map, whose keys are the prior keys together
with the keys now in the bucket: a key outside the bucket keeps its prior
entry, a key of the bucket holds what its stored value unmarshals to. -/
theorem Scan_merges :
    (∀ (um : List Byte → Except Error Person) (s : State),
      allDecode um (bucketPairs s.db "user") →
      ∃ s1 m, Scan um s = .returned (s1, m) ∧ s1.users = m ∧
        bucketPairs s1.db "user" = bucketPairs s.db "user" ∧
        Merged um (bucketPairs s.db "user") s.users m) ∧
    (∀ (um : List Byte → Except Error ObjectBox) (s : State),
      allDecode um (bucketPairs s.db "objectbox") →
      ∃ s1 m, ScanObjectBoxes um s = .returned (s1, m) ∧ s1.objectboxes = m ∧
        bucketPairs s1.db "objectbox" = bucketPairs s.db "objectbox" ∧
        Merged um (bucketPairs s.db "objectbox") s.objectboxes m) ∧
    (∀ (um : List Byte → Except Error UserObject) (s : State),
      allDecode um (bucketPairs s.db "object") →
      ∃ s1 m, ScanObjects um s = .returned (s1, m) ∧ s1.objects = m ∧
        bucketPairs s1.db "object" = bucketPairs s.db "object" ∧
        Merged um (bucketPairs s.db "object") s.objects m) := by
  refine ⟨?_, ?_, ?_⟩
  · intro um s h
    obtain ⟨s1, h1, h2, h3⟩ := Scan_returned um s h
    exact ⟨s1, _, h1, h2, bucketPairs_of_txBucket _ _ _ h3, scanFold_merged um _ _ h⟩
  · intro um s h
    obtain ⟨s1, h1, h2, h3⟩ := ScanObjectBoxes_returned um s h
    exact ⟨s1, _, h1, h2, bucketPairs_of_txBucket _ _ _ h3, scanFold_merged um _ _ h⟩
  · intro um s h
    obtain ⟨s1, h1, h2, h3⟩ := ScanObjects_returned um s h
    exact ⟨s1, _, h1, h2, bucketPairs_of_txBucket _ _ _ h3, scanFold_merged um _ _ h⟩

/-- Instance of C4 as amended: a scan of a store holding one user record,
starting from an empty cache. -/
theorem Scan_merges_witness :
    ∃ s1 m, Scan sampleUnmarshal (Write State.empty "user" "u1" [30]).1 = .returned (s1, m) ∧
      s1.users = m ∧
      bucketPairs s1.db "user" = bucketPairs (Write State.empty "user" "u1" [30]).1.db "user" ∧
      Merged sampleUnmarshal (bucketPairs (Write State.empty "user" "u1" [30]).1.db "user")
        (Write State.empty "user" "u1" [30]).1.users m :=
  Scan_merges.1 sampleUnmarshal (Write State.empty "user" "u1" [30]).1 (by
    intro e he
    have he2 : e = ("u1", [30]) := by
      have hb : bucketPairs (Write State.empty "user" "u1" [30]).1.db "user" =
          [("u1", [30])] := by decide
      rw [hb] at he
      simpa using he
    subst he2
    exact ⟨_, rfl⟩)

/-- C4 fails: a key cached by an earlier scan and then removed with `Delete`
is still in the map the next scan returns, although the bucket has no key. -/
theorem Scan_keeps_deleted_key :
    ∃ s1 m1 s2 s3 m3,
      Scan sampleUnmarshal (Write State.empty "user" "u1" [30]).1 = .returned (s1, m1) ∧
      "u1" ∈ m1 ∧
      Delete s1 "user" "u1" = .returned (s2, none) ∧
      kvKeys (bucketPairs s2.db "user") = [] ∧
      Scan sampleUnmarshal s2 = .returned (s3, m3) ∧
      kvKeys (bucketPairs s3.db "user") = [] ∧
      "u1" ∈ m3 :=
  ⟨_, _, _, _, _, rfl, by decide, rfl, by decide, rfl, by decide, by decide⟩

/-- C9: for every state whose bucket values all unmarshal and every prior
content of the cache, two calls of `Scan` in a row return, and the second
returns the same map as the first; likewise `ScanObjectBoxes` and
`ScanObjects`. -/
theorem Scan_idempotent :
    (∀ (um : List Byte → Except Error Person) (s : State),
      allDecode um (bucketPairs s.db "user") →
      ∃ s1 m1 s2 m2, Scan um s = .returned (s1, m1) ∧ Scan um s1 = .returned (s2, m2) ∧
        m2 = m1) ∧
    (∀ (um : List Byte → Except Error ObjectBox) (s : State),
      allDecode um (bucketPairs s.db "objectbox") →
      ∃ s1 m1 s2 m2, ScanObjectBoxes um s = .returned (s1, m1) ∧
        ScanObjectBoxes um s1 = .returned (s2, m2) ∧ m2 = m1) ∧
    (∀ (um : List Byte → Except Error UserObject) (s : State),
      allDecode um (bucketPairs s.db "object") →
      ∃ s1 m1 s2 m2, ScanObjects um s = .returned (s1, m1) ∧
        ScanObjects um s1 = .returned (s2, m2) ∧ m2 = m1) := by
  refine ⟨?_, ?_, ?_⟩
  · intro um s h
    obtain ⟨s1, h1, h2, h3⟩ := Scan_returned um s h
    have hb := bucketPairs_of_txBucket _ _ _ h3
    obtain ⟨s2, k1, _, _⟩ := Scan_returned um s1 (by rw [hb]; exact h)
    refine ⟨s1, _, s2, _, h1, k1, ?_⟩
    rw [hb, h2, scanFold_idem]
  · intro um s h
    obtain ⟨s1, h1, h2, h3⟩ := ScanObjectBoxes_returned um s h
    have hb := bucketPairs_of_txBucket _ _ _ h3
    obtain ⟨s2, k1, _, _⟩ := ScanObjectBoxes_returned um s1 (by rw [hb]; exact h)
    refine ⟨s1, _, s2, _, h1, k1, ?_⟩
    rw [hb, h2, scanFold_idem]
  · intro um s h
    obtain ⟨s1, h1, h2, h3⟩ := ScanObjects_returned um s h
    have hb := bucketPairs_of_txBucket _ _ _ h3
    obtain ⟨s2, k1, _, _⟩ := ScanObjects_returned um s1 (by rw [hb]; exact h)
    refine ⟨s1, _, s2, _, h1, k1, ?_⟩
    rw [hb, h2, scanFold_idem]

/-! ## Writing a list of records -/

theorem bucketPairs_Write (s : State) (B K : String) (V : List Byte) (hB : B ≠ "")
    (hK : K ≠ "") (hKs : K.utf8ByteSize ≤ MaxKeySize) (hVs : V.length ≤ MaxValueSize) :
    bucketPairs (Write s B K V).1.db B = kvPut K V (bucketPairs s.db B) := by
  unfold bucketPairs
  rw [(Write_txBucket_self s B K V hB hK hKs hVs).2]
  rfl

theorem Write_users (s : State) (B K : String) (V : List Byte) :
    (Write s B K V).1.users = s.users := rfl

theorem writeUsers_users (encode : Person → List Byte) (s : State)
    (recs : List (String × Person)) : (writeUsers encode s recs).users = s.users := by
  induction recs generalizing s with
  | nil => rfl
  | cons r t ih =>
    simp only [writeUsers, List.foldl_cons]
    exact (ih _).trans (Write_users s "user" r.1 (encode r.2))

theorem bucketPairs_writeUsers (encode : Person → List Byte) (s : State)
    (recs : List (String × Person)) (hne : ∀ r ∈ recs, r.1 ≠ "")
    (hfit : ∀ r ∈ recs, r.1.utf8ByteSize ≤ MaxKeySize ∧ (encode r.2).length ≤ MaxValueSize) :
    bucketPairs (writeUsers encode s recs).db "user" =
      recs.foldl (fun b r => kvPut r.1 (encode r.2) b) (bucketPairs s.db "user") := by
  induction recs generalizing s with
  | nil => rfl
  | cons r t ih =>
    have ht : ∀ r ∈ t, r.1 ≠ "" := fun x hx => hne x (List.mem_cons_of_mem _ hx)
    have hft : ∀ r ∈ t, r.1.utf8ByteSize ≤ MaxKeySize ∧ (encode r.2).length ≤ MaxValueSize :=
      fun x hx => hfit x (List.mem_cons_of_mem _ hx)
    have hr := hfit r (by simp)
    simp only [writeUsers, List.foldl_cons]
    have h1 := ih (Write s "user" r.1 (encode r.2)).1 ht hft
    simp only [writeUsers] at h1
    rw [h1, bucketPairs_Write s "user" r.1 (encode r.2) (by decide) (hne r (by simp))
      hr.1 hr.2]

theorem kvSorted_foldl_kvPut (encode : Person → List Byte) (recs : List (String × Person))
    (b : Bucket) (hb : kvSorted b) :
    kvSorted (recs.foldl (fun b r => kvPut r.1 (encode r.2) b) b) := by
  induction recs generalizing b with
  | nil => exact hb
  | cons r t ih => exact ih _ (kvSorted_kvPut _ _ _ hb)

theorem kvGet_foldl_kvPut_not_mem (encode : Person → List Byte)
    (recs : List (String × Person)) (b : Bucket) (k : String)
    (hk : k ∉ recs.map Prod.fst) :
    kvGet k (recs.foldl (fun b r => kvPut r.1 (encode r.2) b) b) = kvGet k b := by
  induction recs generalizing b with
  | nil => rfl
  | cons r t ih =>
    have h1 : k ≠ r.1 := fun e => hk (by simp [e])
    have h2 : k ∉ t.map Prod.fst := fun e => hk (by simp at e ⊢; exact Or.inr e)
    simp only [List.foldl_cons]
    rw [ih _ h2, kvGet_kvPut_ne _ _ _ _ h1]

theorem kvGet_foldl_kvPut_mem (encode : Person → List Byte)
    (recs : List (String × Person)) (b : Bucket) (r : String × Person)
    (hnd : (recs.map Prod.fst).Nodup) (hr : r ∈ recs) :
    kvGet r.1 (recs.foldl (fun b r => kvPut r.1 (encode r.2) b) b) = some (encode r.2) := by
  induction recs generalizing b with
  | nil => simp at hr
  | cons r0 t ih =>
    have hnd2 : r0.1 ∉ t.map Prod.fst ∧ (t.map Prod.fst).Nodup := List.nodup_cons.1 hnd
    simp only [List.foldl_cons]
    rcases List.mem_cons.1 hr with h | h
    · subst h
      rw [kvGet_foldl_kvPut_not_mem encode t _ r.1 hnd2.1, kvGet_kvPut_self]
    · exact ih _ hnd2.2 h

theorem mem_foldl_kvPut (encode : Person → List Byte) (recs : List (String × Person))
    (b : Bucket) (x : String × List Byte)
    (hx : x ∈ recs.foldl (fun b r => kvPut r.1 (encode r.2) b) b) :
    x ∈ b ∨ ∃ r ∈ recs, x = (r.1, encode r.2) := by
  induction recs generalizing b with
  | nil => exact Or.inl hx
  | cons r0 t ih =>
    simp only [List.foldl_cons] at hx
    rcases ih _ hx with h | ⟨r, hr, hr2⟩
    · rcases kvPut_mem _ _ _ _ h with h2 | h2
      · exact Or.inr ⟨r0, by simp, h2⟩
      · exact Or.inl h2
    · exact Or.inr ⟨r, List.mem_cons_of_mem _ hr, hr2⟩

/-- C3, as amended: starting from an empty `user` bucket and an empty users
cache, after `Write("user", K_i, encode(P_i))` for N records with pairwise
distinct non-empty keys of at most 32768 bytes, whose encodings have at most
2147483646 bytes and unmarshal, `Scan` returns a map with exactly N entries,
and the entry at each K_i is what `encode(P_i)` unmarshals to. -/
theorem Scan_complete (encode : Person → List Byte)
    (um : List Byte → Except Error Person) (s : State) (recs : List (String × Person))
    (hb : bucketPairs s.db "user" = []) (hu : s.users = ∅)
    (hnd : (recs.map Prod.fst).Nodup) (hne : ∀ r ∈ recs, r.1 ≠ "")
    (hfit : ∀ r ∈ recs, r.1.utf8ByteSize ≤ MaxKeySize ∧ (encode r.2).length ≤ MaxValueSize)
    (hd : ∀ r ∈ recs, ∃ q, um (encode r.2) = .ok q) :
    ∃ s1 m, Scan um (writeUsers encode s recs) = .returned (s1, m) ∧
      m.keys.card = recs.length ∧
      ∀ r ∈ recs, ∃ q, um (encode r.2) = .ok q ∧ m.lookup r.1 = some q := by
  have hpairs := bucketPairs_writeUsers encode s recs hne hfit
  rw [hb] at hpairs
  have hsorted : kvSorted (bucketPairs (writeUsers encode s recs).db "user") := by
    rw [hpairs]
    exact kvSorted_foldl_kvPut encode recs [] List.Pairwise.nil
  have hget : ∀ r ∈ recs,
      kvGet r.1 (bucketPairs (writeUsers encode s recs).db "user") = some (encode r.2) := by
    intro r hr
    rw [hpairs]
    exact kvGet_foldl_kvPut_mem encode recs [] r hnd hr
  have hmem : ∀ x ∈ bucketPairs (writeUsers encode s recs).db "user",
      ∃ r ∈ recs, x = (r.1, encode r.2) := by
    intro x hx
    rw [hpairs] at hx
    rcases mem_foldl_kvPut encode recs [] x hx with h | h
    · simp at h
    · exact h
  have hdec : allDecode um (bucketPairs (writeUsers encode s recs).db "user") := by
    intro e he
    obtain ⟨r, hr, hr2⟩ := hmem e he
    obtain ⟨q, hq⟩ := hd r hr
    exact ⟨q, by rw [hr2]; exact hq⟩
  obtain ⟨s1, h1, _, _⟩ := Scan_returned um (writeUsers encode s recs) hdec
  obtain ⟨hkeys, _, hvals⟩ := scanFold_merged um _ (writeUsers encode s recs).users hdec
  rw [writeUsers_users, hu] at hkeys hvals h1
  have hkeymem : ∀ k, k ∈ kvKeys (bucketPairs (writeUsers encode s recs).db "user") ↔
      k ∈ recs.map Prod.fst := by
    intro k
    constructor
    · intro hk
      by_contra hc
      have : kvGet k (bucketPairs (writeUsers encode s recs).db "user") = none := by
        rw [hpairs, kvGet_foldl_kvPut_not_mem encode recs [] k hc]
        rfl
      exact ((kvGet_eq_none_iff k _).1 this) hk
    · intro hk
      obtain ⟨r, hr, hr2⟩ := List.mem_map.1 hk
      by_contra hc
      have h2 := (kvGet_eq_none_iff k _).2 hc
      rw [← hr2, hget r hr] at h2
      exact Option.noConfusion h2
  refine ⟨s1, _, h1, ?_, ?_⟩
  · have hfin : (scanFold um (bucketPairs (writeUsers encode s recs).db "user") ∅).keys =
        (recs.map Prod.fst).toFinset := by
      ext k
      rw [Finmap.mem_keys, hkeys k, hkeymem k, List.mem_toFinset]
      constructor
      · rintro (h | h)
        · exact absurd h (Finmap.not_mem_empty)
        · exact h
      · exact Or.inr
    rw [hfin, List.toFinset_card_of_nodup hnd, List.length_map]
  · intro r hr
    have hk : r.1 ∈ kvKeys (bucketPairs (writeUsers encode s recs).db "user") :=
      (hkeymem r.1).2 (List.mem_map.2 ⟨r, hr, rfl⟩)
    obtain ⟨v, u, hv, hv2, hv3⟩ := hvals r.1 hk
    have hv4 := kvGet_of_mem_sorted r.1 v _ hsorted hv
    rw [hget r hr] at hv4
    have hv5 : encode r.2 = v := Option.some.inj hv4
    exact ⟨u, by rw [hv5]; exact hv2, hv3⟩

/-! ## Standard base64: decoding undoes encoding -/

/-- The witness of C5 with its premises discharged: both halves hold. -/
theorem Base64_RawBytes_roundtrip_instance :
    Base64 plenty sampleFiles (sampleObject "obj1" 4) = .returned [81, 81, 61, 61] ∧
      RawBytes plenty sampleFiles (sampleObject "obj1" 4) = .returned [65] := by
  decide

/-- C10: for every `UserObject` whose `ObjectID` names no file, whatever its
other fields and its `Size`, and whatever memory the runtime has, `Base64`
returns the empty string and `RawBytes` an empty byte sequence; neither
panics nor ends the process. -/
theorem Base64_RawBytes_missing_file (canAlloc : Allocator) (fs : FileSystem)
    (ob : UserObject) (h : fs ob.ObjectID = none) :
    Base64 canAlloc fs ob = .returned [] ∧ RawBytes canAlloc fs ob = .returned [] := by
  simp [Base64, RawBytes, osOpen, h]

/-- Witness of C10: no file `nofile`, a negative size and little memory. -/
theorem Base64_RawBytes_missing_file_witness :
    Base64 scarce sampleFiles (sampleObject "nofile" (-5)) = .returned [] ∧
      RawBytes scarce sampleFiles (sampleObject "nofile" (-5)) = .returned [] :=
  Base64_RawBytes_missing_file scarce sampleFiles (sampleObject "nofile" (-5)) (by decide)

/-! ## Instances of the scan results -/

/-- Witness of C3: two records written to the empty store. -/
theorem Scan_complete_witness :
    ∃ s1 m, Scan sampleUnmarshal (writeUsers sampleEncode State.empty
        [("u1", samplePerson "u1" 30), ("u2", samplePerson "u2" 41)]) = .returned (s1, m) ∧
      m.keys.card = [("u1", samplePerson "u1" 30), ("u2", samplePerson "u2" 41)].length ∧
      ∀ r ∈ [("u1", samplePerson "u1" 30), ("u2", samplePerson "u2" 41)],
        ∃ q, sampleUnmarshal (sampleEncode r.2) = .ok q ∧ m.lookup r.1 = some q :=
  Scan_complete sampleEncode sampleUnmarshal State.empty
    [("u1", samplePerson "u1" 30), ("u2", samplePerson "u2" 41)]
    (by decide) rfl (by decide) (by decide) (by decide)
    (by
      intro r hr
      exact ⟨_, rfl⟩)

theorem writeUsers_single (encode : Person → List Byte) (s : State) (k : String)
    (p : Person) : writeUsers encode s [(k, p)] = (Write s "user" k (encode p)).1 :=
  rfl

theorem Scan_after_failed_write (um : List Byte → Except Error Person) (s : State)
    (K : String) (V : List Byte) (hdb : (Write s "user" K V).1.db = s.db)
    (hb : bucketPairs s.db "user" = []) :
    ∃ s1, Scan um (Write s "user" K V).1 = .returned (s1, s.users) := by
  have hb2 : bucketPairs (Write s "user" K V).1.db "user" = [] := by rw [hdb, hb]
  have hdec : allDecode um (bucketPairs (Write s "user" K V).1.db "user") := by
    rw [hb2]
    intro e he
    simp at he
  obtain ⟨s1, h1, _, _⟩ := Scan_returned um (Write s "user" K V).1 hdec
  rw [hb2] at h1
  exact ⟨s1, h1⟩

/-- C3 fails for a record the engine rejects. With the one record of key
`bigKey`, non-empty and of 32769 bytes, the write returns an error and `Scan`
returns a map with no entry, not one. With a record whose encoding is
`bigValue`, of 2147483647 bytes, likewise. In both the encoding unmarshals. -/
theorem Scan_misses_rejected :
    (bigKey ≠ "" ∧
      sampleUnmarshal (sampleEncode (samplePerson "u1" 30)) = .ok (samplePerson "" 30) ∧
      [(bigKey, samplePerson "u1" 30)].length = 1 ∧
      ∃ s1 m, Scan sampleUnmarshal
          (writeUsers sampleEncode State.empty [(bigKey, samplePerson "u1" 30)]) =
            .returned (s1, m) ∧ m.keys.card = 0) ∧
    ("u1" ≠ "" ∧ [("u1", samplePerson "u1" 30)].length = 1 ∧
      ∃ s1 m, Scan (fun _ => .ok (samplePerson "u1" 30))
          (writeUsers (fun _ => bigValue) State.empty [("u1", samplePerson "u1" 30)]) =
            .returned (s1, m) ∧ m.keys.card = 0) := by
  have hk : bigKey.utf8ByteSize > MaxKeySize := by
    rw [bigKey_size]
    decide
  have hv : bigValue.length > MaxValueSize := by
    rw [bigValue_length]
    decide
  have h1 := Write_key_too_large State.empty "user" bigKey
    (sampleEncode (samplePerson "u1" 30)) (by decide) bigKey_ne hk
  have h2 := Write_value_too_large State.empty "user" "u1" bigValue (by decide) (by decide)
    (by decide) hv
  obtain ⟨s1, hs1⟩ := Scan_after_failed_write sampleUnmarshal State.empty bigKey
    (sampleEncode (samplePerson "u1" 30)) h1.2 rfl
  obtain ⟨s2, hs2⟩ := Scan_after_failed_write (fun _ => .ok (samplePerson "u1" 30))
    State.empty "u1" bigValue h2.2 rfl
  refine ⟨⟨bigKey_ne, rfl, rfl, ?_⟩, ⟨by decide, rfl, ?_⟩⟩
  · rw [writeUsers_single]
    exact ⟨s1, _, hs1, rfl⟩
  · rw [writeUsers_single]
    exact ⟨s2, _, hs2, rfl⟩

/-- Instance of C9: two scans in a row of a store holding one record. -/
theorem Scan_idempotent_witness :
    ∃ s1 m1 s2 m2,
      Scan sampleUnmarshal (Write State.empty "user" "u1" [30]).1 = .returned (s1, m1) ∧
      Scan sampleUnmarshal s1 = .returned (s2, m2) ∧ m2 = m1 :=
  Scan_idempotent.1 sampleUnmarshal (Write State.empty "user" "u1" [30]).1 (by
    intro e he
    have hb : bucketPairs (Write State.empty "user" "u1" [30]).1.db "user" =
        [("u1", [30])] := by decide
    rw [hb] at he
    have he2 : e = ("u1", [30]) := by simpa using he
    subst he2
    exact ⟨_, rfl⟩)

/-! ## Lifecycle -/

theorem Write_keeps_bucket (s : State) (B K : String) (V : List Byte) (B2 : String)
    (h : (txBucket s.db B2).isSome) : (txBucket (Write s B K V).1.db B2).isSome := by
  by_cases hne : B2 = B
  · subst hne
    by_cases hB : B2 = ""
    · subst hB
      rw [(Write_db_blank_bucket s K V).1]
      exact h
    · by_cases hK : K = ""
      · subst hK
        simp [(Write_blank_key s B2 V hB).2]
      · by_cases h1 : K.utf8ByteSize > MaxKeySize
        · rw [(Write_key_too_large s B2 K V hB hK h1).2]
          exact h
        · by_cases h2 : V.length > MaxValueSize
          · rw [(Write_value_too_large s B2 K V hB hK (Nat.not_lt.mp h1) h2).2]
            exact h
          · simp [(Write_txBucket_self s B2 K V hB hK (Nat.not_lt.mp h1)
              (Nat.not_lt.mp h2)).2]
  · rw [Write_txBucket_ne s B B2 K V hne]
    exact h

theorem foldl_Write_blank (buckets : List String) (s : State) :
    (∀ b, (txBucket s.db b).isSome →
      (txBucket (buckets.foldl (fun st bucket => (Write st bucket "" []).1) s).db b).isSome) ∧
    (∀ b ∈ buckets, b ≠ "" →
      (txBucket (buckets.foldl (fun st bucket => (Write st bucket "" []).1) s).db b).isSome) := by
  induction buckets generalizing s with
  | nil => exact ⟨fun _ h => h, fun b hb => by simp at hb⟩
  | cons b0 t ih =>
    obtain ⟨ih1, ih2⟩ := ih (Write s b0 "" []).1
    refine ⟨?_, ?_⟩
    · intro b hb
      exact ih1 b (Write_keeps_bucket s b0 "" [] b hb)
    · intro b hb hne
      rcases List.mem_cons.1 hb with h | h
      · subst h
        apply ih1
        simp [(Write_blank_key s b [] hne).2]
      · exact ih2 b h hne

/-- After `Init` on a store that opened, every bucket named with a non-blank
name exists. -/
theorem Init_creates_buckets (db : DB) (buckets : List String) (s : State) :
    ∃ s1, Init (.ok db) buckets s = .returned s1 ∧
      ∀ b ∈ buckets, b ≠ "" → (txBucket s1.db b).isSome :=
  ⟨_, rfl, (foldl_Write_blank buckets _).2⟩

end Userinfo
